import Mathlib

/-!
Verification of the core logic of `my_blackhole_V10.py`, a GitHub-backed
personal web-storage dashboard.  Pure helpers (filename sanitization,
playlist time aggregation, collection (de)serialization, the playlist
session operations, the upload name-disambiguation loop and the
storage-facing entry points) are embedded shallowly; byte-level JSON
printing/parsing (Python `json`) and base64 transport are modelled at the
JSON value level, and the external versioned object store (the GitHub
contents API) is modelled from the specification.
-/

/-! ## Python string primitives used by the helpers -/

/-- Removal of characters satisfying `p` from both ends of a character list,
as Python `str.strip(chars)` does. -/
def stripWith (p : Char → Bool) (l : List Char) : List Char :=
  ((l.dropWhile p).reverse.dropWhile p).reverse

/-- Python `str.strip()` with no argument: trims whitespace from both ends. -/
def pyStrip (l : List Char) : List Char :=
  stripWith (fun c => c.isWhitespace) l

/-- Python `str.strip()` on a `String`. -/
def pyStripStr (s : String) : String :=
  String.mk (pyStrip s.toList)

/-! ## Filename sanitization (`_sanitize_filename`, source lines 550-554) -/

/-- Membership in the allow-list of `SAFE_FILENAME_RX`
(`[^0-9A-Za-z가-힣 _\-\.\(\)]+` is the *rejected* class): digits, ASCII
letters, Hangul syllables U+AC00-U+D7A3, space, underscore, hyphen, dot and
parentheses are kept. -/
def isSafeFilenameChar (c : Char) : Bool :=
  decide ((48 ≤ c.toNat ∧ c.toNat ≤ 57) ∨ (65 ≤ c.toNat ∧ c.toNat ≤ 90) ∨
    (97 ≤ c.toNat ∧ c.toNat ≤ 122) ∨ (44032 ≤ c.toNat ∧ c.toNat ≤ 55203) ∨
    c = ' ' ∨ c = '_' ∨ c = '-' ∨ c = '.' ∨ c = '(' ∨ c = ')')

/-- Regex substitution `SAFE_FILENAME_RX.sub("_", s)`: each maximal run of
disallowed characters is replaced by a single underscore.  The flag records
whether the previous character belonged to such a run. -/
def collapseUnsafe : Bool → List Char → List Char
  | _, [] => []
  | inRun, c :: cs =>
    if isSafeFilenameChar c then c :: collapseUnsafe false cs
    else if inRun then collapseUnsafe true cs
    else '_' :: collapseUnsafe true cs

/-- Model of `_sanitize_filename`: strip whitespace, collapse runs of
disallowed characters to `_`, strip leading/trailing space, dot and
underscore, and fall back to `"playlist"` when the result is empty. -/
def sanitize_filename (name : String) : String :=
  let s := collapseUnsafe false (pyStrip name.toList)
  let s := stripWith (fun c => c == ' ' || c == '.' || c == '_') s
  if s.isEmpty then "playlist" else String.mk s

/-! ## Tracks and playlist time aggregation -/

/-- The `Track` dataclass (source lines 434-440). -/
structure Track where
  video_id : String
  title : String
  duration : Option Int
  thumbnail_url : String
  audio_url : Option String := none
deriving DecidableEq, Repr

/-- Python `int(t.duration or 0)`: a missing (`None`) duration counts as 0;
an integer duration (0 included) is returned unchanged. -/
def durOr0 (t : Track) : Int :=
  t.duration.getD 0

/-- Model of `_playlist_total_secs` (source lines 543-544). -/
def playlist_total_secs (tracks : List Track) : Int :=
  (tracks.map durOr0).sum

/-- Model of `_sum_before_index` (source lines 546-547):
`sum(int(t.duration or 0) for t in tracks[:max(0, min(idx, len(tracks)))])`. -/
def sum_before_index (tracks : List Track) (idx : Int) : Int :=
  ((tracks.take (max 0 (min idx (tracks.length : Int))).toNat).map durOr0).sum

/-! ## JSON values

Serialization in the source goes through Python `json.dumps`/`json.loads`
(deterministic, UTF-8, `ensure_ascii=False`); those external library calls
are modelled at the JSON value level. -/

/-- JSON values, the shape `json.loads` produces. Numbers are restricted to
integers, the only numeric payloads this program writes. -/
inductive Json where
  | null : Json
  | bool : Bool → Json
  | num : Int → Json
  | str : String → Json
  | arr : List Json → Json
  | obj : List (String × Json) → Json

/-- Python truthiness of a JSON value (`if x:` / `x or y`). -/
def pyTruthy : Json → Bool
  | .null => false
  | .bool b => b
  | .num n => n != 0
  | .str s => !s.isEmpty
  | .arr l => !l.isEmpty
  | .obj l => !l.isEmpty

/-- Python `str(x)` on a JSON value.  The program only ever applies it to
strings and numbers of well-formed payloads; the container/`None` cases
mirror Python reprs far enough to stay total. -/
def pyStr : Json → String
  | .null => "None"
  | .bool true => "True"
  | .bool false => "False"
  | .num n => toString n
  | .str s => s
  | .arr _ => "[...]"
  | .obj _ => "{...}"

/-- Python `int(x)` on a JSON value, `none` when `int()` raises. -/
def pyInt : Json → Option Int
  | .num n => some n
  | .bool b => some (if b then 1 else 0)
  | .str s => s.toInt?
  | _ => none

/-- Python `dict.get(k, default)` restricted to objects (the call sites
match on `isinstance(x, dict)` first). -/
def jsonGet (fields : List (String × Json)) (k : String) (dflt : Json) : Json :=
  (fields.lookup k).getD dflt

/-! ## Snippet collection (`_normalize_snippet_item`, `load_snippets`,
`save_snippets`, source lines 168-196) -/

/-- A normalized snippet record `{t, hint?}`. -/
structure Snippet where
  t : String
  hint : Option String
deriving DecidableEq, Repr

/-- Model of `_normalize_snippet_item`: a dict keeps `str(x.get("t",""))`
and a truthy hint as `str(hint)`; any other value becomes `{"t": str(x)}`. -/
def normalize_snippet_item (x : Json) : Snippet :=
  match x with
  | .obj fields =>
    let t := pyStr (jsonGet fields "t" (.str ""))
    let hintJ := jsonGet fields "hint" .null
    if pyTruthy hintJ then { t := t, hint := some (pyStr hintJ) }
    else { t := t, hint := none }
  | _ => { t := pyStr x, hint := none }

/-- Renormalization applied by `save_snippets` before dumping: an empty or
missing hint is dropped rather than stored. -/
def renormalize_snippet (s : Snippet) : Snippet :=
  match s.hint with
  | some h => if h.isEmpty then { t := s.t, hint := none } else s
  | none => s

/-- JSON object a single normalized snippet is dumped as: `{"t": ...}` with
`"hint"` present exactly when the hint is kept. -/
def serialize_snippet (s : Snippet) : Json :=
  match s.hint with
  | some h => .obj [("t", .str s.t), ("hint", .str h)]
  | none => .obj [("t", .str s.t)]

/-- JSON value `save_snippets` writes: the array of renormalized records. -/
def serialize_snippets (l : List Snippet) : Json :=
  .arr (l.map (fun s => serialize_snippet (renormalize_snippet s)))

/-- JSON-value model of `load_snippets`: a JSON array is normalized
item-wise; any other payload yields the empty list. -/
def deserialize_snippets (j : Json) : List Snippet :=
  match j with
  | .arr xs => xs.map normalize_snippet_item
  | _ => []

/-! ## Track serialization (`_serialize_track` / `_deserialize_tracks`,
source lines 569-594) -/

/-- Default thumbnail URL used by `_deserialize_tracks`. -/
def defaultThumb (vid : String) : String :=
  "https://i.ytimg.com/vi/" ++ vid ++ "/hqdefault.jpg"

/-- Model of `_serialize_track`. -/
def serialize_track (t : Track) : Json :=
  .obj [("video_id", .str t.video_id), ("title", .str t.title),
        ("duration", .num (durOr0 t)), ("thumbnail_url", .str t.thumbnail_url)]

/-- One iteration of the `_deserialize_tracks` loop body; `none` models the
caught exception (`except: continue`), raised e.g. by `x.get` on a non-dict
or by `int()` on an unparsable duration. -/
def deserialize_track_item (x : Json) : Option Track :=
  match x with
  | .obj fields =>
    let vid := pyStr (jsonGet fields "video_id" (.str ""))
    let titleS := pyStr (jsonGet fields "title" (.str ("Video " ++ vid)))
    let durJ := jsonGet fields "duration" .null
    match pyInt (if pyTruthy durJ then durJ else .num 0) with
    | none => none
    | some d =>
      let thumbJ := jsonGet fields "thumbnail_url" .null
      let thumb := if pyTruthy thumbJ then pyStr thumbJ else defaultThumb vid
      some { video_id := vid, title := titleS, duration := some d,
             thumbnail_url := thumb, audio_url := none }
  | _ => none

/-- Model of `_deserialize_tracks`: a dict payload is replaced by
`payload.get("tracks") or []`; a list payload is deserialized item-wise
skipping failures; anything else yields the empty list. -/
def deserialize_tracks (payload : Json) : List Track :=
  let p := match payload with
    | .obj fields =>
      let t := jsonGet fields "tracks" .null
      if pyTruthy t then t else .arr []
    | _ => payload
  match p with
  | .arr xs => xs.filterMap deserialize_track_item
  | _ => []

/-- JSON value written by `save_current_playlist_to_repo` (source lines
607-613): name, save timestamp, current index and the serialized tracks. -/
def serialize_playlist_file (name savedAt : String) (ci : Int)
    (tracks : List Track) : Json :=
  .obj [("name", .str name), ("saved_at", .str savedAt),
        ("current_index", .num ci),
        ("tracks", .arr (tracks.map serialize_track))]

/-- Validity of a stored snippet record: a kept hint is never the empty
string (`save_snippets` drops empty hints instead of storing them). -/
def validSnippet (s : Snippet) : Prop :=
  s.hint ≠ some ""

/-- Validity of a track as persisted: duration resolved to an integer,
non-empty thumbnail, and no transient `audio_url` (the stream URL is
deliberately not persisted — `_deserialize_tracks` always rebuilds tracks
with `audio_url=None`). -/
def validTrack (t : Track) : Prop :=
  t.duration ≠ none ∧ t.thumbnail_url ≠ "" ∧ t.audio_url = none

/-! ## Path helpers (`path_join`, `os.path.basename`, `os.path.splitext`) -/

/-- Model of `path_join` (source lines 63-65): keep the parts whose
whitespace-strip is non-empty, strip whitespace then slashes from each, and
join with `/`. -/
def path_join (parts : List String) : String :=
  let clean := (parts.filter (fun p => !(pyStrip p.toList).isEmpty)).map
    (fun p => String.mk (stripWith (fun c => c == '/') (pyStrip p.toList)))
  String.intercalate "/" clean

/-- Model of `os.path.basename`: the component after the last slash. -/
def basename (p : String) : String :=
  String.mk ((p.toList.reverse.takeWhile (fun c => !(c == '/'))).reverse)

/-- Index where `os.path.splitext` cuts a bare file name: the last dot that
has some non-dot character before it (leading dots never start an
extension), `none` when there is no extension. -/
def extSplitIdx (cs : List Char) : Option Nat :=
  (List.range cs.length).reverse.find? (fun i =>
    (cs.getD i ' ' == '.') && !((cs.take i).all (fun c => c == '.')))

/-- Stem returned by `os.path.splitext(name)[0]` for a bare file name. -/
def splitExtStem (name : String) : String :=
  match extSplitIdx name.toList with
  | some i => String.mk (name.toList.take i)
  | none => name

/-- Extension returned by `os.path.splitext(name)[1]` for a bare file name
(dot included, empty when there is none). -/
def splitExtExt (name : String) : String :=
  match extSplitIdx name.toList with
  | some i => String.mk (name.toList.drop i)
  | none => ""

/-! ## Playlist session state and its mutations (claim C5)

The session fields `st.session_state.playlist` / `current_index` relevant
to the index invariant; the handlers below are the track-add branch
(source lines 743-746), the move-up/move-down/delete row buttons
(source lines 1082-1111), the clear button (source lines 819-828) and
`load_playlist_from_repo` (source lines 647-665). -/

/-- The slice of `st.session_state` the playlist index invariant is about. -/
structure PlaylistState where
  playlist : List Track
  current_index : Int
deriving DecidableEq, Repr

/-- Invariant stated by the spec: `current_index` lies in
`[0, len(tracks))` whenever the track list is non-empty and equals 0 when
it is empty. -/
def indexInvariant (s : PlaylistState) : Prop :=
  (s.playlist ≠ [] → 0 ≤ s.current_index ∧ s.current_index < s.playlist.length) ∧
  (s.playlist = [] → s.current_index = 0)

/-- Track-add handler: append, and reset the index to 0 when the appended
track is the only one (`if len(st.session_state.playlist) == 1`). -/
def addTrackToSession (s : PlaylistState) (tr : Track) : PlaylistState :=
  let pl := s.playlist ++ [tr]
  { playlist := pl
    current_index := if pl.length = 1 then 0 else s.current_index }

/-- A placeholder element for the total `List.getD` reads in the swap
handlers; with in-range indices it is never returned. -/
def padTrack : Track :=
  { video_id := "", title := "", duration := none, thumbnail_url := "" }

/-- Move-up button on row `i` (the handler body runs only under `i > 0`;
the renderer guarantees `i < len`): swap rows `i-1` and `i` and shift the
current index when it names one of them. -/
def moveTrackUp (s : PlaylistState) (i : Nat) : PlaylistState :=
  if 0 < i then
    { playlist := (s.playlist.set (i - 1) (s.playlist.getD i padTrack)).set i
        (s.playlist.getD (i - 1) padTrack)
      current_index :=
        if s.current_index = (i : Int) then s.current_index - 1
        else if s.current_index = (i : Int) - 1 then s.current_index + 1
        else s.current_index }
  else s

/-- Move-down button on row `i` (the handler body runs only under
`i < len(pl)-1`): swap rows `i` and `i+1` and shift the current index when
it names one of them. -/
def moveTrackDown (s : PlaylistState) (i : Nat) : PlaylistState :=
  if (i : Int) < (s.playlist.length : Int) - 1 then
    { playlist := (s.playlist.set (i + 1) (s.playlist.getD i padTrack)).set i
        (s.playlist.getD (i + 1) padTrack)
      current_index :=
        if s.current_index = (i : Int) then s.current_index + 1
        else if s.current_index = (i : Int) + 1 then s.current_index - 1
        else s.current_index }
  else s

/-- Delete button on row `i` (the renderer guarantees `i < len`):
`del pl[i]`, then clamp the index only when it fell off the end. -/
def deleteTrackAt (s : PlaylistState) (i : Nat) : PlaylistState :=
  let pl := s.playlist.eraseIdx i
  { playlist := pl
    current_index :=
      if (pl.length : Int) ≤ s.current_index then max 0 ((pl.length : Int) - 1)
      else s.current_index }

/-- Clear button: empty list, index 0. -/
def clearPlaylist (_s : PlaylistState) : PlaylistState :=
  { playlist := [], current_index := 0 }

/-- Session state produced by `load_playlist_from_repo` from the parsed
file payload; `none` models the caught exception (e.g. `int()` failing or
`.get` on a non-dict), after which the session is left untouched.  The
stored `current_index` is adopted *without clamping* whenever the
deserialized track list is non-empty. -/
def loadPlaylistSession (data : Json) : Option PlaylistState :=
  let tracks := deserialize_tracks data
  if tracks.isEmpty then some { playlist := tracks, current_index := 0 }
  else
    match data with
    | .obj fields =>
      match pyInt (jsonGet fields "current_index" (.num 0)) with
      | some ci => some { playlist := tracks, current_index := ci }
      | none => none
    | _ => none

/-! ## Snippet delete-by-index query handler (claim C2, source lines
353-375) -/

/-- Observable outcome of the `snip_del` handler: the list that ends up
stored, whether a write was issued, and the toast shown. -/
structure SnipDelOutcome where
  stored : List Snippet
  wrote : Bool
  toast : String
deriving DecidableEq, Repr

/-- Model of the `snip_del` handler after the fresh read: inside the
bounds check it pops index `idx` and saves; outside it saves nothing; the
toast `"스니펫 삭제됨"` is shown on both paths. -/
def snip_del_handler (current : List Snippet) (idx : Int) : SnipDelOutcome :=
  if 0 ≤ idx ∧ idx < (current.length : Int) then
    { stored := current.eraseIdx idx.toNat, wrote := true, toast := "스니펫 삭제됨" }
  else
    { stored := current, wrote := false, toast := "스니펫 삭제됨" }

/-! ## Upload loop of tab 1 (claims C8 and C9, source lines 1166-1183)

Per selected file the loop computes a collision-free target path by probing
`get_file_sha_if_exists` (one GET per probe, the final negative probe
included), then reads the content, rejects it when larger than
`95*1024*1024` bytes, and otherwise issues the PUT. -/

/-- Network requests the upload loop can issue for one file. -/
inductive GhRequest where
  | getContents (path : String)
  | putContents (path : String)
deriving DecidableEq, Repr

/-- Candidate path checked at probe `k`: the plain name for `k = 0`, then
`folder/"base (k)ext"`. -/
def uploadCandidate (folder name : String) : Nat → String
  | 0 => path_join [folder, name]
  | k + 1 =>
    path_join [folder,
      splitExtStem name ++ " (" ++ toString (k + 1) ++ ")" ++ splitExtExt name]

/-- The probing `while` loop: `taken` is the truthiness of the sha returned
by `get_file_sha_if_exists`.  Returns the GET trace and the final candidate.
The loop only runs forever if every candidate is taken, which a finite
store cannot arrange; `fuel` bounds the iterations modelled and is
discharged by the theorems' freshness hypotheses. -/
def uploadScanAux (taken : String → Bool) (folder name : String) :
    Nat → Nat → List GhRequest × String
  | k, 0 => ([], uploadCandidate folder name k)
  | k, fuel + 1 =>
    let cand := uploadCandidate folder name k
    if taken cand then
      let (rs, final) := uploadScanAux taken folder name (k + 1) fuel
      (.getContents cand :: rs, final)
    else ([.getContents cand], cand)

/-- Upload of one file: probe for a free name, then size-check the content,
then PUT.  The result is `Except` (the raised `RuntimeError` for an
oversized file, caught by the surrounding loop) paired with the full
request trace. -/
def uploadOneFile (taken : String → Bool) (folder name : String)
    (size fuel : Nat) : Except String String × List GhRequest :=
  let (gets, cand) := uploadScanAux taken folder name 0 fuel
  if 95 * 1024 * 1024 < size then
    (.error "파일이 너무 큽니다 (API 한계 ~100MB)", gets)
  else (.ok cand, gets ++ [.putContents cand])

/-! ## Storage-facing playlist entry points (claim C4, source lines
596-699)

The GitHub client calls are abstracted as an interface whose operations
either return a value or raise (`Except.error` carries the Python
exception rendered as a string).  Base64/JSON decoding of fetched content
is folded into the fetch at the value level. -/

/-- Outcomes of the GitHub-client primitives used by the playlist entry
points: `getSha` models `get_file_sha_if_exists` (sha plus decoded content
payload when the file exists), `put` models `put_file`, `getRaw` models
`get_raw_file_bytes` followed by `json.loads`, `del` models the DELETE
request inside `delete_file`. -/
structure GhApi where
  getSha : String → Except String (Option String × Option Json)
  put : String → Json → Option String → String → Except String Json
  getRaw : String → Except String Json
  del : String → String → String → Except String Json

/-- Storage part of `save_current_playlist_to_repo` (fetch sha, PUT, report
success); in the source these calls run with *no* surrounding `try`. -/
def save_playlist_put (gh : GhApi) (pathP : String) (body : Json)
    (name : String) : Except String (Bool × String) := do
  let (sha, _info) ← gh.getSha pathP
  let _resp ← gh.put pathP body sha ("Save playlist: " ++ name)
  pure (true, "저장 완료: " ++ name)

/-- Model of `save_current_playlist_to_repo`.  The two validation failures
return `(False, msg)` pairs, but the storage calls are *not* wrapped in
`try`: their exceptions propagate to the caller. -/
def save_current_playlist_to_repo (gh : GhApi) (ready : Bool)
    (folderPl savedAt : String) (s : PlaylistState) (name : String) :
    Except String (Bool × String) :=
  if !ready then .ok (false, "GitHub 설정이 완료되지 않았습니다.")
  else
    let name := pyStripStr name
    if name.isEmpty then .ok (false, "이름을 입력하세요.")
    else
      save_playlist_put gh (path_join [folderPl, sanitize_filename name ++ ".json"])
        (serialize_playlist_file name savedAt s.current_index s.playlist) name

/-- Body of the `try` block of `append_track_to_playlist_path`: read the
current playlist object, append the track, rewrite the whole file. -/
def append_track_attempt (gh : GhApi) (updatedAt path : String) (tr : Track) :
    Except String String := do
  let (sha, info) ← gh.getSha path
  let curTracks := match info with
    | some d => deserialize_tracks d
    | none => []
  let metaName : Json := match info with
    | some (.obj fields) =>
      jsonGet fields "name" (.str (splitExtStem (basename path)))
    | _ => .str (splitExtStem (basename path))
  let newTracks := curTracks ++ [tr]
  let body := Json.obj
    [("name", metaName), ("updated", .str updatedAt),
     ("tracks", .arr (newTracks.map serialize_track))]
  let _resp ← gh.put path body sha ("Append track to playlist: " ++ pyStr metaName)
  pure ("추가 완료: " ++ pyStr metaName)

/-- Model of `append_track_to_playlist_path`: everything after the `ready`
check runs inside `try`, so storage errors come back as
`(False, "추가 실패: ...")`. -/
def append_track_to_playlist_path (gh : GhApi) (ready : Bool)
    (updatedAt path : String) (tr : Track) : Except String (Bool × String) :=
  if !ready then .ok (false, "GitHub 설정이 완료되지 않았습니다.")
  else
    match append_track_attempt gh updatedAt path tr with
    | .ok m => .ok (true, m)
    | .error e => .ok (false, "추가 실패: " ++ e)

/-- Body of the `try` block of `load_playlist_from_repo`: fetch, parse and
adopt the session state; `loadPlaylistSession` returning `none` models the
raised `int()` failure. -/
def load_playlist_attempt (gh : GhApi) (path : String) : Except String String := do
  let data ← gh.getRaw path
  match loadPlaylistSession data with
  | some _st => pure ("불러오기 완료: " ++ basename path)
  | none => .error "invalid current_index"

/-- Model of `load_playlist_from_repo`: the whole body runs inside `try`,
so any failure comes back as `(False, "불러오기 실패: ...")`. -/
def load_playlist_from_repo (gh : GhApi) (ready : Bool) (path : String) :
    Except String (Bool × String) :=
  if !ready then .ok (false, "GitHub 설정이 완료되지 않았습니다.")
  else
    match load_playlist_attempt gh path with
    | .ok m => .ok (true, m)
    | .error e => .ok (false, "불러오기 실패: " ++ e)

/-- Model of `delete_file` (source lines 102-112): a falsy sha short-cuts
to a benign not-found result, otherwise the DELETE runs. -/
def delete_file (gh : GhApi) (path msg : String) : Except String Bool := do
  let (sha, _) ← gh.getSha path
  match sha with
  | none => pure false
  | some s =>
    if s.isEmpty then pure false
    else do
      let _resp ← gh.del path s msg
      pure true

/-- Model of `delete_playlist_by_path`: `delete_file` inside `try`. -/
def delete_playlist_by_path (gh : GhApi) (ready : Bool) (path : String) :
    Except String (Bool × String) :=
  if !ready then .ok (false, "GitHub 설정이 완료되지 않았습니다.")
  else
    match delete_file gh path ("Delete playlist: " ++ basename path) with
    | .ok _ => .ok (true, "삭제 완료")
    | .error e => .ok (false, "삭제 실패: " ++ e)

/-! ## Remaining mutating UI handlers (claim C4, source lines 335-400,
1460-1492 and 1656-1683)

Each of these handlers — file delete via the `?del=` query, snippet
delete-by-index and reorder via query parameters, memo save/clear, and
snippet add — wraps its storage work in `try`/`except Exception as e` and
surfaces the failure with `st.error(f"... 실패: {e}")`.  The user-visible
outcome (toast or error text) is modelled as a `(success, message)` pair;
an `Except.error` escaping a handler would model an unhandled exception. -/

/-- Model of `load_snippets` (source lines 178-188): fetch sha and content;
a decoded payload that is a JSON array is normalized item-wise, anything
else (including the inner parse failures the function itself catches)
yields the empty list; only the network fetch can raise. -/
def load_snippets (gh : GhApi) (path : String) :
    Except String (List Snippet × Option String) := do
  let (sha, info) ← gh.getSha path
  match info with
  | some d => pure (deserialize_snippets d, sha)
  | none => pure ([], sha)

/-- Sha extracted from a PUT response as `save_snippets` does:
`(resp.get("content") or {}).get("sha")` with any exception mapped to
`None`; a non-string sha value does not occur in well-formed API responses
and is modelled as absent. -/
def resp_sha (resp : Json) : Option String :=
  match resp with
  | .obj fields =>
    let contentJ := jsonGet fields "content" .null
    match (if pyTruthy contentJ then contentJ else .obj []) with
    | .obj cf =>
      match jsonGet cf "sha" .null with
      | .str s => some s
      | _ => none
    | _ => none
  | _ => none

/-- Model of `save_snippets` (source lines 190-196): dump the renormalized
list and PUT it with the supplied sha; the PUT may raise. -/
def save_snippets (gh : GhApi) (path : String) (snippets : List Snippet)
    (sha : Option String) : Except String (Option String) := do
  let resp ← gh.put path (serialize_snippets snippets) sha "Update snippets"
  pure (resp_sha resp)

/-- Model of the `?del=` file-delete query handler (source lines 339-344);
the path is the decoded query value. -/
def del_query_handler (gh : GhApi) (rel_path : String) :
    Except String (Bool × String) :=
  match delete_file gh rel_path "Delete via My Blackhole" with
  | .ok _ => .ok (true, "삭제됨: " ++ basename rel_path)
  | .error e => .ok (false, "삭제 실패: " ++ e)

/-- Body of the `try` block of the `snip_del` query handler (source lines
357-366): fresh read, bounds-checked pop-and-save. -/
def snip_del_query_attempt (gh : GhApi) (snippet_path : String) (idx : Int) :
    Except String (List Snippet × Option String) := do
  let (current, sha) ← load_snippets gh snippet_path
  if 0 ≤ idx ∧ idx < (current.length : Int) then do
    let popped := current.eraseIdx idx.toNat
    let newSha ← save_snippets gh snippet_path popped sha
    pure (popped, newSha)
  else pure (current, sha)

/-- Model of the `snip_del` query handler with its storage effects: the
toast `"스니펫 삭제됨"` on every non-raising path, the caught exception
surfaced as `"스니펫 삭제 실패: ..."`. -/
def snip_del_query_handler (gh : GhApi) (snippet_path : String) (idx : Int) :
    Except String (Bool × String) :=
  match snip_del_query_attempt gh snippet_path idx with
  | .ok _ => .ok (true, "스니펫 삭제됨")
  | .error e => .ok (false, "스니펫 삭제 실패: " ++ e)

/-- Body of the `try` block of the `snip_reorder` query handler (source
lines 381-391): a decoded list payload is normalized and saved over a
fresh read's sha (`True`); a non-list payload is silently ignored
(`False`). -/
def snip_reorder_attempt (gh : GhApi) (snippet_path : String)
    (payload : Json) : Except String Bool :=
  match payload with
  | .arr xs => do
    let normalized := xs.map normalize_snippet_item
    let (_current, sha) ← load_snippets gh snippet_path
    let _newSha ← save_snippets gh snippet_path normalized sha
    pure true
  | _ => pure false

/-- Model of the `snip_reorder` query handler: the toast
`"스니펫 순서 저장 완료"` after a save, no message for an ignored non-list
payload, the caught exception surfaced as `"스니펫 순서 저장 실패: ..."`. -/
def snip_reorder_handler (gh : GhApi) (snippet_path : String)
    (payload : Json) : Except String (Bool × String) :=
  match snip_reorder_attempt gh snippet_path payload with
  | .ok true => .ok (true, "스니펫 순서 저장 완료")
  | .ok false => .ok (false, "")
  | .error e => .ok (false, "스니펫 순서 저장 실패: " ++ e)

/-- Body of the `try` block of the memo save button (source lines
1477-1481): fetch the sha, PUT the memo text (content at the value
level). -/
def memo_save_attempt (gh : GhApi) (memo_filename body : String) :
    Except String Unit := do
  let (sha, _) ← gh.getSha memo_filename
  let _resp ← gh.put memo_filename (.str body) sha "Update memo"
  pure ()

/-- Model of the memo save button handler: toast `"메모 저장 완료"`, caught
exception surfaced as `"저장 실패: ..."`. -/
def memo_save_handler (gh : GhApi) (memo_filename body : String) :
    Except String (Bool × String) :=
  match memo_save_attempt gh memo_filename body with
  | .ok _ => .ok (true, "메모 저장 완료")
  | .error e => .ok (false, "저장 실패: " ++ e)

/-- Body of the `try` block of the memo clear handler (source lines
1461-1464): fetch the sha, PUT empty content. -/
def memo_clear_attempt (gh : GhApi) (memo_filename : String) :
    Except String Unit := do
  let (sha, _) ← gh.getSha memo_filename
  let _resp ← gh.put memo_filename (.str "") sha "Clear memo"
  pure ()

/-- Model of the memo clear handler: toast `"메모를 비웠습니다"`, caught
exception surfaced as `"Clear 실패: ..."`. -/
def memo_clear_handler (gh : GhApi) (memo_filename : String) :
    Except String (Bool × String) :=
  match memo_clear_attempt gh memo_filename with
  | .ok _ => .ok (true, "메모를 비웠습니다")
  | .error e => .ok (false, "Clear 실패: " ++ e)

/-- Parse of the snippet registration input (source lines 1662-1670): an
input containing a colon is split at the first one, the stripped left part
becomes the hint when non-empty, the stripped right part the text; the
input itself is already right-stripped by the caller. -/
def snip_parse_input (raw_in : String) : Snippet :=
  let cs := raw_in.toList
  if cs.contains ':' then
    let left := cs.takeWhile (fun c => !(c == ':'))
    let right := (cs.dropWhile (fun c => !(c == ':'))).drop 1
    let hintS := pyStrip left
    { t := String.mk (pyStrip right)
      hint := if hintS.isEmpty then none else some (String.mk hintS) }
  else { t := raw_in, hint := none }

/-- Body of the `try` block of the snippet add button (source lines
1672-1676): fresh read, append, save. -/
def snip_add_attempt (gh : GhApi) (snippet_path : String) (item : Snippet) :
    Except String (Option String) := do
  let (current, sha) ← load_snippets gh snippet_path
  let _newSha ← save_snippets gh snippet_path (current ++ [item]) sha
  pure _newSha

/-- Model of the snippet add button handler (source lines 1656-1683):
empty input is rejected before any storage call; otherwise the parsed item
is appended inside `try` — toast `"스니펫 등록 완료"`, caught exception
surfaced as `"등록 실패: ..."`. -/
def snip_add_handler (gh : GhApi) (snippet_path raw_in : String) :
    Except String (Bool × String) :=
  if raw_in.isEmpty then .ok (false, "빈 텍스트는 등록하지 않습니다.")
  else
    match snip_add_attempt gh snippet_path (snip_parse_input raw_in) with
    | .ok _ => .ok (true, "스니펫 등록 완료")
    | .error e => .ok (false, "등록 실패: " ++ e)

/-! ## The versioned object store (claim C1)

Modelled from the spec: the store itself is the external GitHub contents
API, absent from the repository; spec section 4.1 fixes its contract —
`write(path, bytes, version_token_or_none, commit_message)` succeeds and
issues a fresh version token when the supplied token matches the object's
current version (or when the object is absent / no token is supplied) and
fails with `VersionConflict` when a supplied token does not match, leaving
the object untouched.  Version tokens are opaque; freshness is modelled by
a counter that outgrows every issued token. -/

/-- Write failure of the modelled store. -/
inductive WriteError where
  | versionConflict
deriving DecidableEq, Repr

/-- Modelled from the spec: state of the versioned object store — per-path
content and current version token, plus the supply of fresh tokens. -/
structure VStore where
  objs : String → Option (List Nat × Nat)
  counter : Nat

/-- Modelled from the spec: `read(path)` returns content and version token. -/
def VStore.read (s : VStore) (path : String) : Option (List Nat × Nat) :=
  s.objs path

/-- Modelled from the spec: token-gated `write`.  A mismatching supplied
token yields `VersionConflict` and leaves the store unchanged; otherwise
the content is stored under a fresh token. -/
def VStore.write (s : VStore) (path : String) (content : List Nat)
    (tok : Option Nat) : Except WriteError Nat × VStore :=
  let commit : Except WriteError Nat × VStore :=
    (.ok s.counter,
     { objs := fun p => if p = path then some (content, s.counter) else s.objs p
       counter := s.counter + 1 })
  match s.objs path, tok with
  | some (_, v), some t =>
    if t = v then commit else (.error .versionConflict, s)
  | some _, none => commit
  | none, some _ => (.error .versionConflict, s)
  | none, none => commit

/-- Every stored token was issued before the counter's current value. -/
def TokensFresh (s : VStore) : Prop :=
  ∀ p c v, s.objs p = some (c, v) → v < s.counter

/-! ## Concrete instances used by the witnesses and counterexamples -/

/-- Concrete playlist with durations 30, 45, missing (counted 0) and 12,
the figures of the spec's aggregation example. -/
def c7Tracks : List Track :=
  [⟨"a", "A", some 30, "u1", none⟩, ⟨"b", "B", some 45, "u2", none⟩,
   ⟨"c", "C", none, "u3", none⟩, ⟨"d", "D", some 12, "u4", none⟩]

/-- Sample track used by the concrete playlist-state instances. -/
def c5Track : Track :=
  { video_id := "v", title := "T", duration := some 3, thumbnail_url := "u"
    audio_url := none }

/-- GitHub interface whose content PUT always fails with a server error
(every write raises `RuntimeError("GitHub PUT failed: ...")`); reads
report an absent file and DELETE succeeds. -/
def ghPutFails : GhApi :=
  { getSha := fun _ => .ok (none, none)
    put := fun _ _ _ _ => .error "GitHub PUT failed: 500"
    getRaw := fun _ => .error "GitHub download failed: 404"
    del := fun _ _ _ => .ok .null }

/-- GitHub interface whose sha/content fetch always fails with a server
error (`RuntimeError("GitHub GET contents failed: ...")`), so every
handler that starts with a read sees a storage failure. -/
def ghGetFails : GhApi :=
  { getSha := fun _ => .error "GitHub GET contents failed: 500"
    put := fun _ _ _ _ => .error "GitHub PUT failed: 500"
    getRaw := fun _ => .error "GitHub download failed: 404"
    del := fun _ _ _ => .ok .null }

/-- Concrete store holding one object at version 0, next fresh token 1. -/
def vstore0 : VStore :=
  { objs := fun p =>
      if p = "my-blackhole/_memo/memo.md" then some ([104, 105], 0) else none
    counter := 1 }

/-! ## Helper lemmas -/

theorem collapseUnsafe_all_safe (b : Bool) (l : List Char) :
    (collapseUnsafe b l).all isSafeFilenameChar = true := by
  induction l generalizing b with
  | nil => rfl
  | cons c cs ih =>
    have hu : isSafeFilenameChar '_' = true := by decide
    unfold collapseUnsafe
    by_cases h : isSafeFilenameChar c
    · simp [h, ih]
    · by_cases hb : b <;> simp [h, hb, hu, ih]

theorem stripWith_all (p q : Char → Bool) (l : List Char)
    (h : l.all q = true) : (stripWith p l).all q = true := by
  rw [List.all_eq_true] at h ⊢
  intro x hx
  apply h
  unfold stripWith at hx
  rw [List.mem_reverse] at hx
  have hx2 := (List.dropWhile_sublist p).subset hx
  rw [List.mem_reverse] at hx2
  exact (List.dropWhile_sublist p).subset hx2

theorem sanitize_output_safe (name : String) :
    (sanitize_filename name).toList.all isSafeFilenameChar = true := by
  unfold sanitize_filename
  dsimp only
  split
  · decide
  · exact stripWith_all _ _ _ (collapseUnsafe_all_safe false (pyStrip name.toList))

/-! ## Claim theorems -/

/-- C6 counterexample: the two example names both sanitize to `"My List"`
(the trailing underscore produced by the collapse is trimmed by
`strip(" ._")`), which differs from the output `"My List_"` named by the
claim — they can never collapse to `"My List_"`. -/
theorem sanitize_collision_value_counterexample :
    sanitize_filename "My List!!" = "My List" ∧
    sanitize_filename "My List??" = "My List" ∧
    ("My List" : String) ≠ "My List_" := by
  refine ⟨by decide, by decide, by decide⟩

/-- C6 (amended): the sanitizer keeps only allow-listed characters
(letters incl. Hangul, digits, space, underscore, hyphen, dot,
parentheses), trims leading/trailing space/dot/underscore, and falls back
to `"playlist"` on an empty result; `sanitize("") = "playlist"`, and the
mapping is not injective: the distinct inputs `"My List!!"` and
`"My List??"` both collapse to `"My List"`. -/
theorem sanitize_filename_spec :
    sanitize_filename "" = "playlist" ∧
    sanitize_filename "My List!!" = sanitize_filename "My List??" ∧
    ("My List!!" : String) ≠ "My List??" ∧
    sanitize_filename "My List!!" = "My List" ∧
    ∀ name : String, (sanitize_filename name).toList.all isSafeFilenameChar = true :=
  ⟨by decide, by decide, by decide, by decide, sanitize_output_safe⟩

/-- C7: the total playlist duration is the sum of per-track durations with
a missing duration counted as 0, and elapsed-before-current is the sum of
the durations of the tracks strictly before the (in-range) current index;
on durations [30, 45, 0, 12] with current index 2 this gives 87 and 75. -/
theorem playlist_time_aggregation (tracks : List Track) (idx : Int)
    (h0 : 0 ≤ idx) (h1 : idx ≤ (tracks.length : Int)) :
    playlist_total_secs tracks = (tracks.map durOr0).sum ∧
    sum_before_index tracks idx = ((tracks.take idx.toNat).map durOr0).sum ∧
    playlist_total_secs c7Tracks = 87 ∧ sum_before_index c7Tracks 2 = 75 := by
  refine ⟨rfl, ?_, by decide, by decide⟩
  have h : (max 0 (min idx (tracks.length : Int))).toNat = idx.toNat := by omega
  rw [sum_before_index, h]

/-- C7 witness at the spec's example. -/
theorem playlist_time_aggregation_witness :
    playlist_total_secs c7Tracks = (c7Tracks.map durOr0).sum ∧
    sum_before_index c7Tracks 2 = ((c7Tracks.take (Int.toNat 2)).map durOr0).sum ∧
    playlist_total_secs c7Tracks = 87 ∧ sum_before_index c7Tracks 2 = 75 :=
  playlist_time_aggregation c7Tracks 2 (by decide) (by decide)

/-- C10: `sum_before_index` is total in its index argument — it sums the
clamped prefix `tracks[:min(max(idx, 0), len(tracks))]`, so it returns 0
for `idx ≤ 0` and the full playlist total for `idx ≥ len(tracks)`, with no
out-of-range access possible. -/
theorem sum_before_index_total (tracks : List Track) (idx : Int) :
    sum_before_index tracks idx =
      ((tracks.take (min (max idx 0) (tracks.length : Int)).toNat).map durOr0).sum ∧
    (idx ≤ 0 → sum_before_index tracks idx = 0) ∧
    ((tracks.length : Int) ≤ idx →
      sum_before_index tracks idx = playlist_total_secs tracks) := by
  refine ⟨?_, ?_, ?_⟩
  · have h : (max 0 (min idx (tracks.length : Int))).toNat =
        (min (max idx 0) (tracks.length : Int)).toNat := by omega
    rw [sum_before_index, h]
  · intro h
    have h0 : (max 0 (min idx (tracks.length : Int))).toNat = 0 := by omega
    rw [sum_before_index, h0]
    simp
  · intro h
    have hl : (max 0 (min idx (tracks.length : Int))).toNat = tracks.length := by
      omega
    rw [sum_before_index, hl, List.take_length, playlist_total_secs]

/-- C10 witness at a negative and an overflowing index. -/
theorem sum_before_index_total_witness :
    sum_before_index c7Tracks (-3) =
      ((c7Tracks.take (min (max (-3) 0) (c7Tracks.length : Int)).toNat).map durOr0).sum ∧
    sum_before_index c7Tracks (-3) = 0 ∧
    sum_before_index c7Tracks 9 = playlist_total_secs c7Tracks :=
  ⟨(sum_before_index_total c7Tracks (-3)).1,
   (sum_before_index_total c7Tracks (-3)).2.1 (by decide),
   (sum_before_index_total c7Tracks 9).2.2 (by decide)⟩

/-- C2 counterexample: a stale index 1 against the freshly read
single-element list is detected and nothing is written, but the handler
shows exactly the same `"스니펫 삭제됨"` toast a successful delete shows —
it does not report that the index is invalid. -/
theorem snip_del_stale_counterexample :
    (snip_del_handler [⟨"A", none⟩] 1).stored = [⟨"A", none⟩] ∧
    (snip_del_handler [⟨"A", none⟩] 1).wrote = false ∧
    (snip_del_handler [⟨"A", none⟩] 1).toast =
      (snip_del_handler [⟨"A", none⟩, ⟨"B", none⟩] 1).toast := by
  refine ⟨by decide, by decide, by decide⟩

/-- C2 (amended): an in-range delete stores the list with exactly the
element at the requested position removed, all others kept in order; an
out-of-range index leaves the stored list unchanged and writes nothing,
but the handler emits the same success toast instead of reporting the
invalid index. -/
theorem snip_del_handler_spec (l : List Snippet) (idx : Int) :
    (0 ≤ idx → idx < (l.length : Int) →
      (snip_del_handler l idx).stored =
        l.take idx.toNat ++ l.drop (idx.toNat + 1) ∧
      (snip_del_handler l idx).wrote = true) ∧
    ((idx < 0 ∨ (l.length : Int) ≤ idx) →
      (snip_del_handler l idx).stored = l ∧
      (snip_del_handler l idx).wrote = false ∧
      (snip_del_handler l idx).toast = "스니펫 삭제됨") := by
  constructor
  · intro h0 h1
    rw [snip_del_handler, if_pos ⟨h0, h1⟩]
    exact ⟨List.eraseIdx_eq_take_drop_succ l idx.toNat, rfl⟩
  · intro h
    rw [snip_del_handler, if_neg (by omega)]
    exact ⟨rfl, rfl, rfl⟩

/-- C2 witness: deleting index 1 from [A,B,C] yields [A,C]; the stale
index 1 against [A] changes nothing and writes nothing. -/
theorem snip_del_handler_spec_witness :
    ((snip_del_handler [⟨"A", none⟩, ⟨"B", none⟩, ⟨"C", none⟩] 1).stored =
        ([⟨"A", none⟩, ⟨"B", none⟩, ⟨"C", none⟩] : List Snippet).take (Int.toNat 1) ++
        ([⟨"A", none⟩, ⟨"B", none⟩, ⟨"C", none⟩] : List Snippet).drop (Int.toNat 1 + 1) ∧
      (snip_del_handler [⟨"A", none⟩, ⟨"B", none⟩, ⟨"C", none⟩] 1).wrote = true) ∧
    ((snip_del_handler [⟨"A", none⟩] 1).stored = [⟨"A", none⟩] ∧
      (snip_del_handler [⟨"A", none⟩] 1).wrote = false ∧
      (snip_del_handler [⟨"A", none⟩] 1).toast = "스니펫 삭제됨") :=
  ⟨(snip_del_handler_spec [⟨"A", none⟩, ⟨"B", none⟩, ⟨"C", none⟩] 1).1
      (by decide) (by decide),
   (snip_del_handler_spec [⟨"A", none⟩] 1).2 (by decide)⟩

theorem isEmpty_false_of_ne (s : String) (h : s ≠ "") : s.isEmpty = false := by
  cases he : s.isEmpty
  · rfl
  · exact absurd ((String.isEmpty_iff s).mp he) h

theorem snippet_roundtrip_item (s : Snippet) (h : validSnippet s) :
    normalize_snippet_item (serialize_snippet (renormalize_snippet s)) = s := by
  obtain ⟨t, hint⟩ := s
  cases hint with
  | none => rfl
  | some hv =>
    have hne : hv ≠ "" := fun he => h (by simp [he])
    have hemp : hv.isEmpty = false := isEmpty_false_of_ne hv hne
    have hser : serialize_snippet (renormalize_snippet ⟨t, some hv⟩) =
        Json.obj [("t", Json.str t), ("hint", Json.str hv)] := by
      rw [renormalize_snippet]
      dsimp only
      rw [hemp]
      rfl
    rw [hser]
    simp only [normalize_snippet_item, jsonGet,
      show List.lookup "t" [("t", Json.str t), ("hint", Json.str hv)] =
        some (Json.str t) from rfl,
      show List.lookup "hint" [("t", Json.str t), ("hint", Json.str hv)] =
        some (Json.str hv) from rfl,
      Option.getD_some, pyStr, pyTruthy, hemp]
    rfl

theorem track_roundtrip_item (t : Track) (h : validTrack t) :
    deserialize_track_item (serialize_track t) = some t := by
  obtain ⟨hd, hth, hau⟩ := h
  obtain ⟨vid, title, dur, thumb, au⟩ := t
  cases dur with
  | none => exact absurd rfl hd
  | some d =>
    have hau2 : au = none := hau
    subst hau2
    have hth2 : thumb.isEmpty = false := isEmpty_false_of_ne thumb hth
    have hser : serialize_track ⟨vid, title, some d, thumb, none⟩ =
        Json.obj [("video_id", Json.str vid), ("title", Json.str title),
          ("duration", Json.num d), ("thumbnail_url", Json.str thumb)] := rfl
    rw [hser]
    simp only [deserialize_track_item, jsonGet,
      show List.lookup "video_id" [("video_id", Json.str vid),
          ("title", Json.str title), ("duration", Json.num d),
          ("thumbnail_url", Json.str thumb)] = some (Json.str vid) from rfl,
      show List.lookup "title" [("video_id", Json.str vid),
          ("title", Json.str title), ("duration", Json.num d),
          ("thumbnail_url", Json.str thumb)] = some (Json.str title) from rfl,
      show List.lookup "duration" [("video_id", Json.str vid),
          ("title", Json.str title), ("duration", Json.num d),
          ("thumbnail_url", Json.str thumb)] = some (Json.num d) from rfl,
      show List.lookup "thumbnail_url" [("video_id", Json.str vid),
          ("title", Json.str title), ("duration", Json.num d),
          ("thumbnail_url", Json.str thumb)] = some (Json.str thumb) from rfl,
      Option.getD_some, pyStr, pyTruthy, pyInt, hth2]
    by_cases hz : d = 0
    · subst hz
      simp
    · simp [hz]

theorem deserialize_serialize_tracks (tracks : List Track)
    (ht : ∀ t ∈ tracks, validTrack t) :
    (tracks.map serialize_track).filterMap deserialize_track_item = tracks := by
  induction tracks with
  | nil => rfl
  | cons a l ih =>
    rw [List.map_cons, List.filterMap_cons,
      track_roundtrip_item a (ht a (by simp)),
      ih (fun t htl => ht t (by simp [htl]))]

/-- C3: deserializing what was serialized restores the collection
field-for-field and in order — for a snippet list of normalized records
(`load_snippets` of the array `save_snippets` writes) and for a playlist
track list (`_deserialize_tracks` of the playlist file
`save_current_playlist_to_repo` writes from `_serialize_track` records). -/
theorem collection_roundtrip (snips : List Snippet)
    (hs : ∀ s ∈ snips, validSnippet s)
    (tracks : List Track) (ht : ∀ t ∈ tracks, validTrack t)
    (name savedAt : String) (ci : Int) :
    deserialize_snippets (serialize_snippets snips) = snips ∧
    deserialize_tracks (serialize_playlist_file name savedAt ci tracks) = tracks := by
  constructor
  · rw [serialize_snippets, deserialize_snippets, List.map_map]
    conv_rhs => rw [← List.map_id snips]
    exact List.map_congr_left fun s hmem =>
      snippet_roundtrip_item s (hs s hmem)
  · cases tracks with
    | nil => rfl
    | cons a l => exact deserialize_serialize_tracks (a :: l) ht

/-- C3 witness at a one-snippet and a one-track collection. -/
theorem collection_roundtrip_witness :
    deserialize_snippets (serialize_snippets [⟨"x", some "h"⟩]) =
      [⟨"x", some "h"⟩] ∧
    deserialize_tracks
        (serialize_playlist_file "pl" "t0" 0 [⟨"v", "T", some 3, "u", none⟩]) =
      [⟨"v", "T", some 3, "u", none⟩] :=
  collection_roundtrip [⟨"x", some "h"⟩]
    (by intro s hmem; rw [List.mem_singleton] at hmem; subst hmem
        exact (by decide : (some "h" : Option String) ≠ some ""))
    [⟨"v", "T", some 3, "u", none⟩]
    (by intro t hmem; rw [List.mem_singleton] at hmem; subst hmem
        exact ⟨by decide, by decide, rfl⟩)
    "pl" "t0" 0

/-- C5 counterexample: loading a stored playlist file whose
`current_index` field is 5 while it holds a single track puts the session
in a state with `current_index = 5 ∉ [0, 1)` — `load_playlist_from_repo`
adopts the stored index without clamping. -/
theorem load_index_invariant_counterexample :
    loadPlaylistSession (serialize_playlist_file "x" "t0" 5 [c5Track]) =
      some { playlist := [c5Track], current_index := 5 } ∧
    ¬ indexInvariant { playlist := [c5Track], current_index := 5 } := by
  constructor
  · rfl
  · intro hinv
    have h := (hinv.1 (by simp)).2
    simp at h

/-- C5 (amended): the in-session playlist mutations — track append, move
up, move down, delete at a rendered row index, and clear — all preserve the
index invariant (`current_index ∈ [0, len)` when non-empty, 0 when empty),
and loading an empty playlist resets the index to 0; loading a non-empty
playlist adopts the stored index unclamped, so the invariant holds after a
load only when the stored value is in range. -/
theorem playlist_index_invariant (s : PlaylistState) (hinv : indexInvariant s) :
    (∀ tr, indexInvariant (addTrackToSession s tr)) ∧
    (∀ i, i < s.playlist.length → indexInvariant (moveTrackUp s i)) ∧
    (∀ i, i < s.playlist.length → indexInvariant (moveTrackDown s i)) ∧
    (∀ i, i < s.playlist.length → indexInvariant (deleteTrackAt s i)) ∧
    indexInvariant (clearPlaylist s) ∧
    (∀ data st, loadPlaylistSession data = some st → st.playlist = [] →
      st.current_index = 0) := by
  obtain ⟨hne, hemp⟩ := hinv
  refine ⟨?_, ?_, ?_, ?_, ?_, ?_⟩
  · intro tr
    have hlen : (addTrackToSession s tr).playlist.length = s.playlist.length + 1 := by
      simp [addTrackToSession]
    have hplne : (addTrackToSession s tr).playlist ≠ [] := by
      intro hc
      rw [hc] at hlen
      simp at hlen
    refine ⟨fun _ => ?_, fun hc => absurd hc hplne⟩
    have hci : (addTrackToSession s tr).current_index =
        if (s.playlist ++ [tr]).length = 1 then 0 else s.current_index := rfl
    rw [hci, hlen]
    by_cases h1 : (s.playlist ++ [tr]).length = 1
    · rw [if_pos h1]
      simp only [List.length_append, List.length_cons, List.length_nil] at h1
      constructor <;> omega
    · rw [if_neg h1]
      simp only [List.length_append, List.length_cons, List.length_nil] at h1
      have hb := hne (by
        intro hcE
        apply h1
        rw [hcE]
        rfl)
      constructor <;> omega
  · intro i hi
    by_cases hpos : 0 < i
    · have hb := hne (by intro hc; rw [hc] at hi; simp at hi)
      have hlen : (moveTrackUp s i).playlist.length = s.playlist.length := by
        simp [moveTrackUp, hpos]
      have hplne : (moveTrackUp s i).playlist ≠ [] := by
        intro hc
        rw [hc] at hlen
        simp at hlen
        omega
      refine ⟨fun _ => ?_, fun hc => absurd hc hplne⟩
      have hci : (moveTrackUp s i).current_index =
          if s.current_index = (i : Int) then s.current_index - 1
          else if s.current_index = (i : Int) - 1 then s.current_index + 1
          else s.current_index := by
        rw [moveTrackUp, if_pos hpos]
      rw [hci, hlen]
      split
      · constructor <;> omega
      · split <;> (constructor <;> omega)
    · rw [moveTrackUp, if_neg hpos]
      exact ⟨hne, hemp⟩
  · intro i hi
    by_cases hlt : (i : Int) < (s.playlist.length : Int) - 1
    · have hb := hne (by intro hc; rw [hc] at hi; simp at hi)
      have hlen : (moveTrackDown s i).playlist.length = s.playlist.length := by
        simp [moveTrackDown, hlt]
      have hplne : (moveTrackDown s i).playlist ≠ [] := by
        intro hc
        rw [hc] at hlen
        simp at hlen
        omega
      refine ⟨fun _ => ?_, fun hc => absurd hc hplne⟩
      have hci : (moveTrackDown s i).current_index =
          if s.current_index = (i : Int) then s.current_index + 1
          else if s.current_index = (i : Int) + 1 then s.current_index - 1
          else s.current_index := by
        rw [moveTrackDown, if_pos hlt]
      rw [hci, hlen]
      split
      · constructor <;> omega
      · split <;> (constructor <;> omega)
    · rw [moveTrackDown, if_neg hlt]
      exact ⟨hne, hemp⟩
  · intro i hi
    have hb := hne (by intro hc; rw [hc] at hi; simp at hi)
    have hlen : (s.playlist.eraseIdx i).length = s.playlist.length - 1 :=
      List.length_eraseIdx_of_lt hi
    have hci : (deleteTrackAt s i).current_index =
        if ((s.playlist.eraseIdx i).length : Int) ≤ s.current_index then
          max 0 (((s.playlist.eraseIdx i).length : Int) - 1)
        else s.current_index := rfl
    constructor
    · intro hne2
      have hpos : 0 < (s.playlist.eraseIdx i).length := by
        rcases hcase : s.playlist.eraseIdx i with _ | ⟨a, l⟩
        · exact absurd hcase hne2
        · simp
      have hlen2 : ((deleteTrackAt s i).playlist.length : Int) =
          ((s.playlist.eraseIdx i).length : Int) := rfl
      rw [hci, hlen2]
      split
      · rw [max_eq_right (by omega)]
        constructor <;> omega
      · constructor <;> omega
    · intro hc
      have hc2 : s.playlist.eraseIdx i = [] := hc
      have hz : (s.playlist.eraseIdx i).length = 0 := by rw [hc2]; rfl
      rw [hci, hz]
      rw [if_pos (by omega)]
      rw [show ((0 : Nat) : Int) - 1 = -1 from rfl]
      rfl
  · exact ⟨fun h => absurd rfl h, fun _ => rfl⟩
  · intro data st hload hplE
    simp only [loadPlaylistSession] at hload
    by_cases hE : (deserialize_tracks data).isEmpty
    · rw [if_pos hE] at hload
      cases hload
      rfl
    · rw [if_neg hE] at hload
      split at hload
      · split at hload
        · cases hload
          rw [List.isEmpty_iff] at hE
          exact absurd hplE hE
        · exact absurd hload (by simp)
      · exact absurd hload (by simp)

/-- C5 witness: the mutations applied to a singleton playlist at index 0. -/
theorem playlist_index_invariant_witness :
    indexInvariant (addTrackToSession ⟨[c5Track], 0⟩ c5Track) ∧
    indexInvariant (moveTrackUp ⟨[c5Track], 0⟩ 0) ∧
    indexInvariant (moveTrackDown ⟨[c5Track], 0⟩ 0) ∧
    indexInvariant (deleteTrackAt ⟨[c5Track], 0⟩ 0) ∧
    indexInvariant (clearPlaylist ⟨[c5Track], 0⟩) :=
  have h := playlist_index_invariant ⟨[c5Track], 0⟩
    ⟨fun _ => ⟨le_refl 0, by simp⟩, by simp⟩
  ⟨h.1 c5Track, h.2.1 0 (by simp), h.2.2.1 0 (by simp), h.2.2.2.1 0 (by simp),
   h.2.2.2.2.1⟩

theorem uploadScanAux_finds (taken : String → Bool) (folder name : String) :
    ∀ fuel j m, j ≤ m → m < j + fuel →
      taken (uploadCandidate folder name m) = false →
      (∀ i, j ≤ i → i < m → taken (uploadCandidate folder name i) = true) →
      (uploadScanAux taken folder name j fuel).2 = uploadCandidate folder name m := by
  intro fuel
  induction fuel with
  | zero =>
    intro j m hjm hm _ _
    omega
  | succ f ih =>
    intro j m hjm hm hfree hprev
    rw [uploadScanAux]
    by_cases hj : j = m
    · subst hj
      rw [hfree, if_neg Bool.false_ne_true]
    · have ht : taken (uploadCandidate folder name j) = true :=
        hprev j (le_refl j) (by omega)
      rw [ht, if_pos rfl]
      exact ih (j + 1) m (by omega) (by omega) hfree
        (fun i hi1 hi2 => hprev i (by omega) hi2)

theorem uploadScanAux_gets_only (taken : String → Bool) (folder name : String) :
    ∀ fuel j r, r ∈ (uploadScanAux taken folder name j fuel).1 →
      ∃ p, r = .getContents p := by
  intro fuel
  induction fuel with
  | zero =>
    intro j r hr
    simp [uploadScanAux] at hr
  | succ f ih =>
    intro j r hr
    rw [uploadScanAux] at hr
    by_cases ht : taken (uploadCandidate folder name j)
    · rw [ht, if_pos rfl] at hr
      have hr2 : r ∈ GhRequest.getContents (uploadCandidate folder name j) ::
          (uploadScanAux taken folder name (j + 1) f).1 := hr
      rcases List.mem_cons.mp hr2 with hc | hc
      · exact ⟨_, hc⟩
      · exact ih (j + 1) r hc
    · rw [Bool.not_eq_true] at ht
      rw [ht, if_neg Bool.false_ne_true] at hr
      rcases List.mem_singleton.mp hr with hc
      exact ⟨_, hc⟩

/-- C8: when candidate `k` (the plain filename for `k = 0`, else the name
with `" (k)"` spliced in before the extension) is the first free name, the
upload of an acceptable-size file stores it under exactly that name: the
plain name when it is free, otherwise the first free disambiguated name. -/
theorem upload_disambiguation (taken : String → Bool) (folder name : String)
    (size fuel k : Nat) (hsize : size ≤ 95 * 1024 * 1024) (hk : k < fuel)
    (hfree : taken (uploadCandidate folder name k) = false)
    (hprev : ∀ j, j < k → taken (uploadCandidate folder name j) = true) :
    (uploadOneFile taken folder name size fuel).1 =
      .ok (uploadCandidate folder name k) := by
  have hscan : (uploadScanAux taken folder name 0 fuel).2 =
      uploadCandidate folder name k :=
    uploadScanAux_finds taken folder name fuel 0 k (Nat.zero_le k) (by omega)
      hfree (fun i _ hi => hprev i hi)
  rcases hpair : uploadScanAux taken folder name 0 fuel with ⟨gets, cand⟩
  rw [hpair] at hscan
  dsimp only at hscan
  rw [uploadOneFile, hpair]
  dsimp only
  rw [if_neg (by omega)]
  dsimp only
  rw [hscan]

/-- C8 witness: uploading `"report.pdf"` into `inbox` with the name free
stores it at `inbox/report.pdf`; repeating the upload once that path is
taken stores it at `inbox/report (1).pdf`. -/
theorem upload_disambiguation_witness :
    (uploadOneFile (fun _ => false) "inbox" "report.pdf" 10 1).1 =
      .ok (uploadCandidate "inbox" "report.pdf" 0) ∧
    (uploadOneFile (fun p => p == "inbox/report.pdf") "inbox" "report.pdf" 10 2).1 =
      .ok (uploadCandidate "inbox" "report.pdf" 1) ∧
    uploadCandidate "inbox" "report.pdf" 0 = "inbox/report.pdf" ∧
    uploadCandidate "inbox" "report.pdf" 1 = "inbox/report (1).pdf" :=
  ⟨upload_disambiguation (fun _ => false) "inbox" "report.pdf" 10 1 0
      (by omega) (by omega) rfl (fun j hj => absurd hj (by omega)),
   upload_disambiguation (fun p => p == "inbox/report.pdf") "inbox" "report.pdf"
      10 2 1 (by omega) (by omega) (by decide)
      (fun j hj => by
        interval_cases j
        decide),
   by decide, by decide⟩

/-- C9 counterexample: an upload whose content exceeds the 95 MiB limit is
rejected, but the name-disambiguation existence probe has already issued a
GET to the remote store on behalf of that file — the request trace is not
empty. -/
theorem oversized_upload_network_counterexample :
    (uploadOneFile (fun _ => false) "inbox" "big.bin" (95 * 1024 * 1024 + 1) 1).1 =
      .error "파일이 너무 큽니다 (API 한계 ~100MB)" ∧
    (uploadOneFile (fun _ => false) "inbox" "big.bin" (95 * 1024 * 1024 + 1) 1).2 =
      [.getContents "inbox/big.bin"] := by
  constructor
  · rfl
  · rfl

/-- C9 (amended): an oversized upload is rejected as a validation error
before the content is transmitted — the raised size error prevents any
PUT, so the request trace holds only the existence-check GETs of the name
disambiguation, which do run before the size check. -/
theorem oversized_upload_no_put (taken : String → Bool) (folder name : String)
    (size fuel : Nat) (hsize : 95 * 1024 * 1024 < size) :
    (uploadOneFile taken folder name size fuel).1 =
      .error "파일이 너무 큽니다 (API 한계 ~100MB)" ∧
    (∀ p, GhRequest.putContents p ∉ (uploadOneFile taken folder name size fuel).2) := by
  rcases hpair : uploadScanAux taken folder name 0 fuel with ⟨gets, cand⟩
  rw [uploadOneFile, hpair]
  dsimp only
  rw [if_pos hsize]
  refine ⟨rfl, fun p hmem => ?_⟩
  obtain ⟨q, hq⟩ := uploadScanAux_gets_only taken folder name fuel 0 _
    (by rw [hpair]; exact hmem)
  exact GhRequest.noConfusion hq

/-- C9 witness at a 95 MiB + 1 byte file. -/
theorem oversized_upload_no_put_witness :
    (uploadOneFile (fun _ => false) "inbox" "big.bin" (95 * 1024 * 1024 + 1) 2).1 =
      .error "파일이 너무 큽니다 (API 한계 ~100MB)" ∧
    GhRequest.putContents "inbox/big.bin" ∉
      (uploadOneFile (fun _ => false) "inbox" "big.bin" (95 * 1024 * 1024 + 1) 2).2 :=
  have h := oversized_upload_no_put (fun _ => false) "inbox" "big.bin"
    (95 * 1024 * 1024 + 1) 2 (by omega)
  ⟨h.1, h.2 "inbox/big.bin"⟩

theorem except_bind_error {α β : Type} (e : String) (f : α → Except String β) :
    (Except.error e >>= f) = Except.error e := rfl

theorem except_bind_ok {α β : Type} (a : α) (f : α → Except String β) :
    (Except.ok a >>= f) = f a := rfl

theorem save_playlist_put_error (gh : GhApi) (pathP : String) (body : Json)
    (nm e : String) (he : save_playlist_put gh pathP body nm = .error e) :
    (∃ p, gh.getSha p = .error e) ∨
    (∃ p b sh m, gh.put p b sh m = .error e) := by
  rw [save_playlist_put] at he
  rcases hg : gh.getSha pathP with e2 | pr
  · rw [hg, except_bind_error] at he
    injection he with h2
    subst h2
    exact .inl ⟨pathP, hg⟩
  · rw [hg, except_bind_ok] at he
    obtain ⟨sha, info⟩ := pr
    dsimp only at he
    rcases hp : gh.put pathP body sha ("Save playlist: " ++ nm) with e2 | r
    · rw [hp, except_bind_error] at he
      injection he with h2
      subst h2
      exact .inr ⟨pathP, body, sha, "Save playlist: " ++ nm, hp⟩
    · rw [hp, except_bind_ok] at he
      exact Except.noConfusion he

/-- C4 counterexample: with the store's PUT failing, the playlist-save
entry point does not return a `(success, message)` pair — the storage
error escapes it as an unhandled exception (its storage calls have no
surrounding `try`, unlike append/load/delete). -/
theorem save_playlist_exception_counterexample :
    save_current_playlist_to_repo ghPutFails true "my-blackhole/_playlists"
      "t0" { playlist := [], current_index := 0 } "노동요" =
      .error "GitHub PUT failed: 500" := rfl

/-- C4 (amended): every mutating entry point except playlist save returns
or surfaces storage-layer errors rather than swallowing them or leaking
them — playlist append-track, load and delete always return a
`(success, message)` pair, mapping any storage error to `(False, ...)`;
the file-delete, snippet delete/reorder/add and memo save/clear handlers
likewise never leak an exception and surface a caught storage error as
their respective `"... 실패: <error>"` message; the playlist-save entry
point alone propagates storage errors as unhandled exceptions — whenever
it yields an exception instead of a pair, that exception is exactly a
storage-layer failure of the sha fetch or of the PUT. -/
theorem mutation_error_pairs (gh : GhApi) (ready : Bool)
    (updatedAt path folderPl savedAt nm relPath snipPath memoPath memoBody
      rawIn : String) (payload : Json) (idx : Int) (tr : Track)
    (s : PlaylistState) :
    (∃ r, append_track_to_playlist_path gh ready updatedAt path tr = .ok r) ∧
    (∃ r, load_playlist_from_repo gh ready path = .ok r) ∧
    (∃ r, delete_playlist_by_path gh ready path = .ok r) ∧
    (∀ e, save_current_playlist_to_repo gh ready folderPl savedAt s nm = .error e →
      (∃ p, gh.getSha p = .error e) ∨
      (∃ p b sh m, gh.put p b sh m = .error e)) ∧
    ((∃ r, del_query_handler gh relPath = .ok r) ∧
     (∀ e, delete_file gh relPath "Delete via My Blackhole" = .error e →
       del_query_handler gh relPath = .ok (false, "삭제 실패: " ++ e))) ∧
    ((∃ r, snip_del_query_handler gh snipPath idx = .ok r) ∧
     (∀ e, snip_del_query_attempt gh snipPath idx = .error e →
       snip_del_query_handler gh snipPath idx =
         .ok (false, "스니펫 삭제 실패: " ++ e))) ∧
    ((∃ r, snip_reorder_handler gh snipPath payload = .ok r) ∧
     (∀ e, snip_reorder_attempt gh snipPath payload = .error e →
       snip_reorder_handler gh snipPath payload =
         .ok (false, "스니펫 순서 저장 실패: " ++ e))) ∧
    ((∃ r, memo_save_handler gh memoPath memoBody = .ok r) ∧
     (∀ e, memo_save_attempt gh memoPath memoBody = .error e →
       memo_save_handler gh memoPath memoBody = .ok (false, "저장 실패: " ++ e))) ∧
    ((∃ r, memo_clear_handler gh memoPath = .ok r) ∧
     (∀ e, memo_clear_attempt gh memoPath = .error e →
       memo_clear_handler gh memoPath = .ok (false, "Clear 실패: " ++ e))) ∧
    ((∃ r, snip_add_handler gh snipPath rawIn = .ok r) ∧
     (∀ e, rawIn.isEmpty = false →
       snip_add_attempt gh snipPath (snip_parse_input rawIn) = .error e →
       snip_add_handler gh snipPath rawIn = .ok (false, "등록 실패: " ++ e))) := by
  have hD : ∀ (g : GhApi) (r : String), del_query_handler g r =
      match delete_file g r "Delete via My Blackhole" with
      | .ok _ => .ok (true, "삭제됨: " ++ basename r)
      | .error e => .ok (false, "삭제 실패: " ++ e) := fun _ _ => rfl
  have hSD : ∀ (g : GhApi) (p : String) (i : Int), snip_del_query_handler g p i =
      match snip_del_query_attempt g p i with
      | .ok _ => .ok (true, "스니펫 삭제됨")
      | .error e => .ok (false, "스니펫 삭제 실패: " ++ e) := fun _ _ _ => rfl
  have hSR : ∀ (g : GhApi) (p : String) (pl : Json), snip_reorder_handler g p pl =
      match snip_reorder_attempt g p pl with
      | .ok true => .ok (true, "스니펫 순서 저장 완료")
      | .ok false => .ok (false, "")
      | .error e => .ok (false, "스니펫 순서 저장 실패: " ++ e) := fun _ _ _ => rfl
  have hMS : ∀ (g : GhApi) (p b : String), memo_save_handler g p b =
      match memo_save_attempt g p b with
      | .ok _ => .ok (true, "메모 저장 완료")
      | .error e => .ok (false, "저장 실패: " ++ e) := fun _ _ _ => rfl
  have hMC : ∀ (g : GhApi) (p : String), memo_clear_handler g p =
      match memo_clear_attempt g p with
      | .ok _ => .ok (true, "메모를 비웠습니다")
      | .error e => .ok (false, "Clear 실패: " ++ e) := fun _ _ => rfl
  have hSA : ∀ (g : GhApi) (p r : String), snip_add_handler g p r =
      if r.isEmpty then .ok (false, "빈 텍스트는 등록하지 않습니다.")
      else
        match snip_add_attempt g p (snip_parse_input r) with
        | .ok _ => .ok (true, "스니펫 등록 완료")
        | .error e => .ok (false, "등록 실패: " ++ e) := fun _ _ _ => rfl
  refine ⟨?_, ?_, ?_, ?_, ⟨?_, ?_⟩, ⟨?_, ?_⟩, ⟨?_, ?_⟩, ⟨?_, ?_⟩, ⟨?_, ?_⟩,
    ⟨?_, ?_⟩⟩
  · cases ready with
    | false => exact ⟨_, rfl⟩
    | true =>
      have h1 : append_track_to_playlist_path gh true updatedAt path tr =
          match append_track_attempt gh updatedAt path tr with
          | .ok m => .ok (true, m)
          | .error e => .ok (false, "추가 실패: " ++ e) := rfl
      rw [h1]
      cases hA : append_track_attempt gh updatedAt path tr
      · exact ⟨_, rfl⟩
      · exact ⟨_, rfl⟩
  · cases ready with
    | false => exact ⟨_, rfl⟩
    | true =>
      have h1 : load_playlist_from_repo gh true path =
          match load_playlist_attempt gh path with
          | .ok m => .ok (true, m)
          | .error e => .ok (false, "불러오기 실패: " ++ e) := rfl
      rw [h1]
      cases hA : load_playlist_attempt gh path
      · exact ⟨_, rfl⟩
      · exact ⟨_, rfl⟩
  · cases ready with
    | false => exact ⟨_, rfl⟩
    | true =>
      have h1 : delete_playlist_by_path gh true path =
          match delete_file gh path ("Delete playlist: " ++ basename path) with
          | .ok _ => .ok (true, "삭제 완료")
          | .error e => .ok (false, "삭제 실패: " ++ e) := rfl
      rw [h1]
      cases hA : delete_file gh path ("Delete playlist: " ++ basename path)
      · exact ⟨_, rfl⟩
      · exact ⟨_, rfl⟩
  · intro e he
    cases ready with
    | false => exact absurd he (by simp [save_current_playlist_to_repo])
    | true =>
      have h1 : save_current_playlist_to_repo gh true folderPl savedAt s nm =
          if (pyStripStr nm).isEmpty then .ok (false, "이름을 입력하세요.")
          else
            save_playlist_put gh
              (path_join [folderPl, sanitize_filename (pyStripStr nm) ++ ".json"])
              (serialize_playlist_file (pyStripStr nm) savedAt s.current_index
                s.playlist) (pyStripStr nm) := rfl
      rw [h1] at he
      split at he
      · exact absurd he (by simp)
      · exact save_playlist_put_error gh _ _ _ e he
  · rw [hD]
    cases hA : delete_file gh relPath "Delete via My Blackhole" <;> exact ⟨_, rfl⟩
  · intro e he
    have h2 := hD gh relPath
    rw [he] at h2
    exact h2
  · rw [hSD]
    cases hA : snip_del_query_attempt gh snipPath idx <;> exact ⟨_, rfl⟩
  · intro e he
    have h2 := hSD gh snipPath idx
    rw [he] at h2
    exact h2
  · rw [hSR]
    cases hA : snip_reorder_attempt gh snipPath payload with
    | error e => exact ⟨_, rfl⟩
    | ok b => cases b <;> exact ⟨_, rfl⟩
  · intro e he
    have h2 := hSR gh snipPath payload
    rw [he] at h2
    exact h2
  · rw [hMS]
    cases hA : memo_save_attempt gh memoPath memoBody <;> exact ⟨_, rfl⟩
  · intro e he
    have h2 := hMS gh memoPath memoBody
    rw [he] at h2
    exact h2
  · rw [hMC]
    cases hA : memo_clear_attempt gh memoPath <;> exact ⟨_, rfl⟩
  · intro e he
    have h2 := hMC gh memoPath
    rw [he] at h2
    exact h2
  · rw [hSA]
    by_cases hemp : rawIn.isEmpty = true
    · rw [if_pos hemp]
      exact ⟨_, rfl⟩
    · rw [if_neg hemp]
      cases hA : snip_add_attempt gh snipPath (snip_parse_input rawIn) <;>
        exact ⟨_, rfl⟩
  · intro e hemp he
    have h2 := hSA gh snipPath rawIn
    rw [hemp, if_neg Bool.false_ne_true, he] at h2
    exact h2

/-- C4 witness: with the failing-PUT store, append/load/delete still
return pairs and the exception escaping the save entry point is the PUT's
own error; with the failing-GET store, each of the six other mutating
handlers surfaces the storage error as its failure message. -/
theorem mutation_error_pairs_witness :
    (∃ r, append_track_to_playlist_path ghPutFails true "t0" "a/b.json" c5Track =
      .ok r) ∧
    (∃ r, load_playlist_from_repo ghPutFails true "a/b.json" = .ok r) ∧
    (∃ r, delete_playlist_by_path ghPutFails true "a/b.json" = .ok r) ∧
    ((∃ p, ghPutFails.getSha p = .error "GitHub PUT failed: 500") ∨
     (∃ p b sh m, ghPutFails.put p b sh m = .error "GitHub PUT failed: 500")) ∧
    del_query_handler ghGetFails "f/x.bin" =
      .ok (false, "삭제 실패: " ++ "GitHub GET contents failed: 500") ∧
    snip_del_query_handler ghGetFails "my-blackhole/_snippets/snippets.json" 0 =
      .ok (false, "스니펫 삭제 실패: " ++ "GitHub GET contents failed: 500") ∧
    snip_reorder_handler ghGetFails "my-blackhole/_snippets/snippets.json"
        (.arr []) =
      .ok (false, "스니펫 순서 저장 실패: " ++ "GitHub GET contents failed: 500") ∧
    memo_save_handler ghGetFails "my-blackhole/_memo/memo.md" "hi" =
      .ok (false, "저장 실패: " ++ "GitHub GET contents failed: 500") ∧
    memo_clear_handler ghGetFails "my-blackhole/_memo/memo.md" =
      .ok (false, "Clear 실패: " ++ "GitHub GET contents failed: 500") ∧
    snip_add_handler ghGetFails "my-blackhole/_snippets/snippets.json"
        "카드:1123" =
      .ok (false, "등록 실패: " ++ "GitHub GET contents failed: 500") :=
  have h := mutation_error_pairs ghPutFails true "t0" "a/b.json"
    "my-blackhole/_playlists" "sa" "노동요" "f/x.bin"
    "my-blackhole/_snippets/snippets.json" "my-blackhole/_memo/memo.md" "hi"
    "카드:1123" (.arr []) 0 c5Track { playlist := [], current_index := 0 }
  have h2 := mutation_error_pairs ghGetFails true "t0" "a/b.json"
    "my-blackhole/_playlists" "sa" "노동요" "f/x.bin"
    "my-blackhole/_snippets/snippets.json" "my-blackhole/_memo/memo.md" "hi"
    "카드:1123" (.arr []) 0 c5Track { playlist := [], current_index := 0 }
  ⟨h.1, h.2.1, h.2.2.1, h.2.2.2.1 "GitHub PUT failed: 500" rfl,
   h2.2.2.2.2.1.2 "GitHub GET contents failed: 500" rfl,
   h2.2.2.2.2.2.1.2 "GitHub GET contents failed: 500" rfl,
   h2.2.2.2.2.2.2.1.2 "GitHub GET contents failed: 500" rfl,
   h2.2.2.2.2.2.2.2.1.2 "GitHub GET contents failed: 500" rfl,
   h2.2.2.2.2.2.2.2.2.1.2 "GitHub GET contents failed: 500" rfl,
   h2.2.2.2.2.2.2.2.2.2.2 "GitHub GET contents failed: 500" rfl rfl⟩

/-- C1: an object read at version `v1` accepts a write conditioned on
`v1`, yielding a fresh token `v2 ≠ v1`; a second write still supplying the
stale `v1` fails with `VersionConflict` and leaves the stored content at
`(b1, v2)` untouched; a write supplying `v2` then succeeds. -/
theorem optimistic_write_correctness (s : VStore) (hfresh : TokensFresh s)
    (path : String) (c0 : List Nat) (v1 : Nat)
    (hobj : s.read path = some (c0, v1)) (b1 b2 b3 : List Nat) :
    ∃ v2 s2, s.write path b1 (some v1) = (.ok v2, s2) ∧ v2 ≠ v1 ∧
      (s2.write path b2 (some v1)).1 = .error .versionConflict ∧
      (s2.write path b2 (some v1)).2 = s2 ∧
      s2.read path = some (b1, v2) ∧
      ∃ v3 s3, s2.write path b3 (some v2) = (.ok v3, s3) := by
  have hobj2 : s.objs path = some (c0, v1) := hobj
  have hv1 : v1 < s.counter := hfresh path c0 v1 hobj2
  refine ⟨s.counter,
    { objs := fun p => if p = path then some (b1, s.counter) else s.objs p
      counter := s.counter + 1 }, ?_, by omega, ?_, ?_, ?_, ?_⟩
  · unfold VStore.write
    rw [hobj2]
    dsimp only
    rw [if_pos rfl]
  · unfold VStore.write
    dsimp only
    rw [if_pos rfl]
    dsimp only
    rw [if_neg (by omega)]
  · unfold VStore.write
    dsimp only
    rw [if_pos rfl]
    dsimp only
    rw [if_neg (by omega)]
  · unfold VStore.read
    dsimp only
    rw [if_pos rfl]
  · unfold VStore.write
    dsimp only
    rw [if_pos rfl]
    dsimp only
    rw [if_pos rfl]
    exact ⟨_, _, rfl⟩

/-- C1 witness on a concrete one-object store. -/
theorem optimistic_write_correctness_witness :
    ∃ v2 s2,
      vstore0.write "my-blackhole/_memo/memo.md" [104] (some 0) = (.ok v2, s2) ∧
      v2 ≠ 0 ∧
      (s2.write "my-blackhole/_memo/memo.md" [105] (some 0)).1 =
        .error .versionConflict ∧
      (s2.write "my-blackhole/_memo/memo.md" [105] (some 0)).2 = s2 ∧
      s2.read "my-blackhole/_memo/memo.md" = some ([104], v2) ∧
      ∃ v3 s3, s2.write "my-blackhole/_memo/memo.md" [106] (some v2) =
        (.ok v3, s3) :=
  optimistic_write_correctness vstore0
    (by
      intro p c v h
      simp only [vstore0] at h
      by_cases hp : p = "my-blackhole/_memo/memo.md"
      · rw [if_pos hp] at h
        injection h with h2
        injection h2 with h3 h4
        show v < 1
        omega
      · rw [if_neg hp] at h
        exact Option.noConfusion h)
    "my-blackhole/_memo/memo.md" [104, 105] 0 rfl [104] [105] [106]
